import Mathlib

/-!
Verification of the Wavefront custom emitter (`wavefrontEmitter.py`).

The source is a single Python 2 class `emitter` whose `__call__` receives a
JSON payload, a logging object and an agent configuration, translates the
payload into Wavefront wire lines and delivers them to a proxy socket (or
prints them in dry-run mode).

Shallow embedding conventions:
* JSON values are `JVal`.  Numbers are exact decimals `PyNum`
  (value = `mant / 10 ^ exp`); the payloads in the claims use only small
  decimal literals, which this represents exactly.  A number with `exp = 0`
  plays the role of a Python `int`/`long`, one with `exp > 0` of a `float`
  (floats never subscript lists in Python; the emitter's own indices are
  integer literals).
* Python exceptions are the `PyExc` inductive; fallible operations return
  `Except PyExc α`.  Python semantics of subscripting, `in`, iteration,
  truthiness, `int()` / `long()` conversion are modelled by total helper
  functions (`getItem`, `pyContains`, `pyIter`, `truthy`, `pyInt`, `pyLong`).
  String primitives (`split`, `strip`, `replace`, slicing) are modelled by
  structurally recursive functions over the character list.
* The mutable `emitter` instance plus its observable effects (emitted lines,
  log lines, raw prints, socket events) form `EmSt`; every effectful method
  is a function `EmSt → ... → EmSt × Except PyExc Unit`, so effects performed
  before an exception are retained, matching Python.
* The socket is abstracted by `SockSt`; connecting succeeds iff the oracle
  `connectOk` passed to the call is true.  `sock.sendall` is assumed to
  succeed; `sock.shutdown` raises (`socketError`) when the socket was created
  but never connected, as the OS does.  A wire line is recorded structurally
  as a `Line` (name, value, truncated timestamp, resolved host, the exact tag
  string built by `build_tag_string`, and whether it went to the socket);
  the rendering of the numeric value by `'%s'` is not modelled since no
  property depends on it.
* The logging object is `Option Logger`: `none` is Python `None`; a `Logger`
  records which of the attributes `error`, `debug`, `err` it provides, and
  calling a missing attribute raises `attributeError`.
* Python dicts are association lists with unique keys (`dictInsert`
  overwrites in place or appends); iteration order is the list order.
-/

/-- An exact decimal number: the value `mant / 10 ^ exp`.  `exp = 0` models a
Python `int`/`long`, `exp > 0` a `float`.  The emitter performs no arithmetic
on payload numbers, only truncation, truthiness and equality, so this exact
representation is faithful for the decimal literals appearing in payloads. -/
structure PyNum where
  mant : Int
  exp : Nat
deriving Repr, DecidableEq

/-- The integer `n` as a `PyNum`. -/
def PyNum.ofInt (n : Int) : PyNum := ⟨n, 0⟩

instance (n : Nat) : OfNat PyNum n := ⟨⟨n, 0⟩⟩

/-- Numeric value equality (`mant₁ / 10 ^ exp₁ = mant₂ / 10 ^ exp₂`). -/
def PyNum.eq (a b : PyNum) : Bool :=
  a.mant * ((10 : Int) ^ b.exp) = b.mant * ((10 : Int) ^ a.exp)

/-- Truncation toward zero, the behaviour of Python `long()` on a number. -/
def PyNum.trunc (a : PyNum) : Int :=
  a.mant.tdiv ((10 : Int) ^ a.exp)

/-- A JSON/Python value as handled by the emitter. -/
inductive JVal where
  | str : String → JVal
  | num : PyNum → JVal
  | arr : List JVal → JVal
  | obj : List (String × JVal) → JVal
  | none : JVal

/-- Python exceptions that the emitter's code paths can raise. -/
inductive PyExc where
  | keyError
  | indexError
  | typeError
  | valueError
  | attributeError
  | socketError
deriving Repr, DecidableEq

/-- Python truthiness of a `JVal` (`if x:`). -/
def truthy : JVal → Bool
  | .str s => s ≠ ""
  | .num q => q.mant ≠ 0
  | .arr xs => ¬xs.isEmpty
  | .obj kvs => ¬kvs.isEmpty
  | .none => false

/-- Whether a `JVal` is a Python string (`isinstance(v, basestring)`). -/
def JVal.isStr : JVal → Bool
  | .str _ => true
  | _ => false

/-- Model of Python `==` between the values the emitter compares.  The only
comparisons the emitter performs are between a subscripted host value and the
one-character string `'='`, between a tag key and the skip key, and list
membership against a string key; comparisons of two containers (which no code
path reaches with a meaningful answer) are conservatively `false`. -/
def pyEq : JVal → JVal → Bool
  | .str a, .str b => a = b
  | .num a, .num b => a.eq b
  | .none, .none => true
  | _, _ => false

/-- Does the character list `sub` start the list `s`? -/
def startsList : List Char → List Char → Bool
  | _, [] => true
  | [], _ :: _ => false
  | c :: cs, d :: ds => c = d && startsList cs ds

/-- Does `sub` occur as a contiguous run inside `s`? -/
def hasSubList : List Char → List Char → Bool
  | [], sub => sub.isEmpty
  | c :: rest, sub => startsList (c :: rest) sub || hasSubList rest sub

/-- Python substring test `sub in s`. -/
def strContains (s sub : String) : Bool :=
  hasSubList s.toList sub.toList

/-- Python `s.split(sep)` for a one-character separator: splits on every
occurrence; always returns at least one (possibly empty) piece. -/
def splitChar (sep : Char) : List Char → List (List Char)
  | [] => [[]]
  | c :: cs =>
    let r := splitChar sep cs
    if c = sep then [] :: r
    else
      match r with
      | [] => [[c]]
      | g :: gs => (c :: g) :: gs

/-- Python `s.split(sep)` returning strings. -/
def pySplit (s : String) (sep : Char) : List String :=
  (splitChar sep s.toList).map fun l => String.mk l

/-- Python `v.split(sep)` on an arbitrary value: a non-string has no `split`
attribute and raises `AttributeError`. -/
def pySplitAttr (v : JVal) (sep : Char) : Except PyExc (List String) :=
  match v with
  | .str s => .ok (pySplit s sep)
  | _ => .error .attributeError

/-- Python `key in container` (`in` operator). -/
def pyContains : JVal → JVal → Except PyExc Bool
  | .obj kvs, .str s => .ok (kvs.any fun kv => kv.1 = s)
  | .obj _, .num _ => .ok false
  | .obj _, .none => .ok false
  | .obj _, _ => .error .typeError
  | .arr xs, k => .ok (xs.any fun x => pyEq x k)
  | .str s, .str sub => .ok (strContains s sub)
  | .str _, _ => .error .typeError
  | _, _ => .error .typeError

/-- Python subscripting `container[key]`. -/
def getItem : JVal → JVal → Except PyExc JVal
  | .obj kvs, .str s =>
    match kvs.lookup s with
    | some v => .ok v
    | Option.none => .error .keyError
  | .obj _, .num _ => .error .keyError
  | .obj _, .none => .error .keyError
  | .obj _, _ => .error .typeError
  | .arr xs, .num q =>
    if q.exp = 0 then
      if h : 0 ≤ q.mant ∧ q.mant.toNat < xs.length then .ok (xs.get ⟨q.mant.toNat, h.2⟩)
      else .error .indexError
    else .error .typeError
  | .arr _, _ => .error .typeError
  | .str s, .num q =>
    if q.exp = 0 then
      if h : 0 ≤ q.mant ∧ q.mant.toNat < s.toList.length then
        .ok (.str (String.mk [s.toList.get ⟨q.mant.toNat, h.2⟩]))
      else .error .indexError
    else .error .typeError
  | .str _, _ => .error .typeError
  | _, _ => .error .typeError

/-- Python `x[0]` as used on the host-name value. -/
def getIdx0 : JVal → Except PyExc JVal
  | .str s =>
    match s.toList with
    | [] => .error .indexError
    | c :: _ => .ok (.str (String.mk [c]))
  | .arr xs =>
    match xs with
    | [] => .error .indexError
    | x :: _ => .ok x
  | .obj _ => .error .keyError
  | _ => .error .typeError

/-- Python slice `x[1:]`. -/
def slice1 : JVal → Except PyExc JVal
  | .str s => .ok (.str (String.mk (s.toList.drop 1)))
  | .arr xs => .ok (.arr (xs.drop 1))
  | _ => .error .typeError

/-- Python iteration `for x in v` (dicts iterate over their keys). -/
def pyIter : JVal → Except PyExc (List JVal)
  | .arr xs => .ok xs
  | .str s => .ok (s.toList.map fun c => .str (String.mk [c]))
  | .obj kvs => .ok (kvs.map fun kv => .str kv.1)
  | _ => .error .typeError

/-- Python `v.iteritems()`. -/
def pyItems : JVal → Except PyExc (List (String × JVal))
  | .obj kvs => .ok kvs
  | _ => .error .attributeError

/-- Python `len(v)`. -/
def pyLen : JVal → Except PyExc Int
  | .arr xs => .ok xs.length
  | .obj kvs => .ok kvs.length
  | .str s => .ok s.length
  | _ => .error .typeError

/-- Whitespace trim from both ends of a character list (Python `strip()`). -/
def trimChars (l : List Char) : List Char :=
  ((l.dropWhile Char.isWhitespace).reverse.dropWhile Char.isWhitespace).reverse

/-- Python `int(s)` on a configuration string: strip whitespace, optional
sign, then decimal digits; anything else raises `ValueError` (`none`). -/
def pyInt (s : String) : Option Int :=
  let t := trimChars s.toList
  let (sign, digits) :=
    match t with
    | '-' :: rest => ((-1 : Int), rest)
    | '+' :: rest => (1, rest)
    | _ => (1, t)
  if ¬digits.isEmpty ∧ digits.all Char.isDigit then
    some (sign * (digits.foldl (fun n c => 10 * n + (c.toNat - 48)) (0 : Nat) : Nat))
  else
    Option.none

/-- Python `long(v)` on a value. -/
def pyLong : JVal → Except PyExc Int
  | .num q => .ok q.trunc
  | .str s =>
    match pyInt s with
    | some n => .ok n
    | Option.none => .error .valueError
  | _ => .error .typeError

/-- Python dict assignment `d[k] = v`: overwrite in place or append. -/
def dictInsert (d : List (String × JVal)) (k : String) (v : JVal) :
    List (String × JVal) :=
  if d.any (fun kv => kv.1 = k) then
    d.map fun kv => if kv.1 = k then (k, v) else kv
  else
    d ++ [(k, v)]

/-- State of the `self.sock` attribute. -/
inductive SockSt where
  | noSock
  | created
  | connected
  | closed
deriving Repr, DecidableEq

/-- Observable socket operations, recorded in order of occurrence. -/
inductive SockEv where
  | create
  | connectAttempt
  | shutdownCall
  | closeCall
deriving Repr, DecidableEq

/-- The logging capability: which attributes the supplied log object has.
The source calls `log.error`, `log.debug` and `log.err`; calling a missing
attribute raises `AttributeError`. -/
structure Logger where
  hasError : Bool
  hasDebug : Bool
  hasErr : Bool
deriving Repr, DecidableEq

/-- A wire line as produced by `send_metric` (line 154 of the source),
recorded structurally: the `%s %s %d source="%s"%s` fields plus whether the
line went to the socket (`sendall`) or to standard output (dry run). -/
structure Line where
  name : JVal
  value : JVal
  tstamp : Int
  host : JVal
  tag_str : String
  viaSocket : Bool

/-- The `emitter` instance state together with its observable effects. -/
structure EmSt where
  proxy_dry_run : Bool
  sock : SockSt
  point_tags : List (String × JVal)
  source_tags : List JVal
  meta_tags : List String
  lines : List Line
  logs : List String
  errPrints : List String
  sockEvents : List SockEv

/-- `emitter.__init__`. -/
def initSt : EmSt :=
  { proxy_dry_run := true, sock := .noSock, point_tags := [], source_tags := [],
    meta_tags := [], lines := [], logs := [], errPrints := [], sockEvents := [] }

/-- `emitter.sanitize`: three successive `replace`s delete every `[`, `]`
and `"` character. -/
def sanitize (s : String) : String :=
  String.mk (((s.toList.filter (· ≠ '[')).filter (· ≠ ']')).filter (· ≠ '"'))

/-- `emitter.convert_key_to_dotted_name`: buffer loop over the characters;
an uppercase character appends `.` and its lowercase form, any other
character is appended unchanged. -/
def convert_key_to_dotted_name (key : String) : String :=
  String.mk (key.toList.foldl
    (fun buf c => if c.isUpper then buf ++ ['.', c.toLower] else buf ++ [c]) [])

/-- The string payload of a `JVal` known to be a string. -/
def JVal.asStr : JVal → String
  | .str s => s
  | _ => ""

/-- One iteration of the `for tag_key, tag_value in tags.iteritems()` loop of
`emitter.build_tag_string`: skip an entry whose value is not a string or
whose key equals the skip key, append ` "key"="value"` otherwise. -/
def tagStep (skip_tag_key : JVal) (tag_str : String) (kv : String × JVal) :
    String :=
  if ¬kv.2.isStr ∨ pyEq (.str kv.1) skip_tag_key then tag_str
  else tag_str ++ " \"" ++ kv.1 ++ "\"=\"" ++ kv.2.asStr ++ "\""

/-- The whole `iteritems` loop of `emitter.build_tag_string`. -/
def tagFold (kvs : List (String × JVal)) (skip_tag_key : JVal) : String :=
  kvs.foldl (tagStep skip_tag_key) ""

/-- `emitter.build_tag_string`: returns `""` for a falsy `tags` argument,
otherwise iterates `tags.iteritems()` (raising `AttributeError` on a truthy
non-dict).  The skip key is the raw Python value (`None` when absent). -/
def build_tag_string (tags skip_tag_key : JVal) : Except PyExc String :=
  if ¬truthy tags then .ok ""
  else
    match tags with
    | .obj kvs => .ok (tagFold kvs skip_tag_key)
    | _ => .error .attributeError

/-- `emitter.send_metric`: skip on a `None` value; resolve the `"=<key>"`
host sentinel against the metric tags; build the tag string from the metric
tags and then the cached point tags, both with the same skip key; then emit
the line (print in dry run / no socket, `sendall` otherwise). -/
def send_metric (st : EmSt) (name value tstamp host_name tags : JVal) :
    EmSt × Except PyExc Unit :=
  match value with
  | .none => (st, .ok ())
  | _ =>
    let condRes : Except PyExc (JVal × JVal) :=
      if truthy tags then
        match getIdx0 host_name with
        | .error e => .error e
        | .ok h0 =>
          if pyEq h0 (.str "=") then
            match slice1 host_name with
            | .error e => .error e
            | .ok h1 =>
              match pyContains tags h1 with
              | .error e => .error e
              | .ok true =>
                match getItem tags h1 with
                | .error e => .error e
                | .ok hv => .ok (h1, hv)
              | .ok false => .ok (.none, host_name)
          else .ok (.none, host_name)
      else .ok (.none, host_name)
    match condRes with
    | .error e => (st, .error e)
    | .ok (skip_tag_key, host') =>
      match build_tag_string tags skip_tag_key with
      | .error e => (st, .error e)
      | .ok ts1 =>
        match build_tag_string (.obj st.point_tags) skip_tag_key with
        | .error e => (st, .error e)
        | .ok ts2 =>
          match pyLong tstamp with
          | .error e => (st, .error e)
          | .ok ts =>
            let line : Line :=
              { name := name, value := value, tstamp := ts, host := host',
                tag_str := ts1 ++ ts2,
                viaSocket := ¬(st.proxy_dry_run ∨ st.sock = .noSock) }
            ({st with lines := st.lines ++ [line]}, .ok ())

/-- The tag loop of `parse_dogstatsd` (lines 128-130): for each token,
`parts = tag.split(':')`, then `tags[parts[0]] = parts[1]`.  A non-string
token has no `split` attribute; a token whose split has a single piece makes
`parts[1]` raise `IndexError`. -/
def dogstatsdTags : List JVal → List (String × JVal) →
    Except PyExc (List (String × JVal))
  | [], tags => .ok tags
  | tag :: rest, tags =>
    match pySplitAttr tag ':' with
    | .error e => .error e
    | .ok (p0 :: p1 :: _) => dogstatsdTags rest (dictInsert tags p0 (.str p1))
    | .ok _ => .error .indexError

/-- The points loop of `parse_dogstatsd` (lines 134-137). -/
def dogPointsLoop (name host_name tags : JVal) :
    EmSt → List JVal → EmSt × Except PyExc Unit
  | st, [] => (st, .ok ())
  | st, point :: rest =>
    match getItem point (.num 0) with
    | .error e => (st, .error e)
    | .ok tstamp =>
      match getItem point (.num 1) with
      | .error e => (st, .error e)
      | .ok value =>
        match send_metric st name value tstamp host_name tags with
        | (st', .error e) => (st', .error e)
        | (st', .ok _) => dogPointsLoop name host_name tags st' rest

/-- Lines 126-130 of `parse_dogstatsd`: `tags = {}`, then `if jtags:` iterate
the token list through the splitting loop. -/
def dogTagsOf (jtags : JVal) : Except PyExc (List (String × JVal)) :=
  if truthy jtags then
    match pyIter jtags with
    | .error e => .error e
    | .ok ts => dogstatsdTags ts []
  else .ok []

/-- The series loop of `parse_dogstatsd` (lines 123-137). -/
def dogMetricsLoop : EmSt → List JVal → EmSt × Except PyExc Unit
  | st, [] => (st, .ok ())
  | st, metric :: rest =>
    match getItem metric (.str "metric") with
    | .error e => (st, .error e)
    | .ok name =>
      match getItem metric (.str "tags") with
      | .error e => (st, .error e)
      | .ok jtags =>
        match dogTagsOf jtags with
        | .error e => (st, .error e)
        | .ok tags =>
          match getItem metric (.str "host") with
          | .error e => (st, .error e)
          | .ok host_name =>
            match getItem metric (.str "points") with
            | .error e => (st, .error e)
            | .ok jpoints =>
              match pyIter jpoints with
              | .error e => (st, .error e)
              | .ok pts =>
                match dogPointsLoop name host_name (.obj tags) st pts with
                | (st', .error e) => (st', .error e)
                | (st', .ok _) => dogMetricsLoop st' rest

/-- `emitter.parse_dogstatsd`. -/
def parse_dogstatsd (st : EmSt) (message : JVal) : EmSt × Except PyExc Unit :=
  match getItem message (.str "series") with
  | .error e => (st, .error e)
  | .ok metrics =>
    match pyIter metrics with
    | .error e => (st, .error e)
    | .ok ms => dogMetricsLoop st ms

/-- The `cpu* mem*` gauge loop of `parse_collector` (lines 247-250). -/
def collGaugesLoop (tstamp : Int) (host_name : JVal) :
    EmSt → List (String × JVal) → EmSt × Except PyExc Unit
  | st, [] => (st, .ok ())
  | st, (key, value) :: rest =>
    if key.toList.take 3 = "cpu".toList ∨ key.toList.take 3 = "mem".toList then
      match send_metric st (.str ("system." ++ convert_key_to_dotted_name key))
          value (.num (PyNum.ofInt tstamp)) host_name .none with
      | (st', .error e) => (st', .error e)
      | (st', .ok _) => collGaugesLoop tstamp host_name st' rest
    else collGaugesLoop tstamp host_name st rest

/-- The `metrics` array loop of `parse_collector` (lines 253-256); the
arguments of `send_metric` are evaluated left to right, so subscripts raise
in the order `metric[0]`, `metric[2]`, `metric[1]`, then `long(...)`, then
`metric[3]`. -/
def collMetricsLoop : EmSt → List JVal → EmSt × Except PyExc Unit
  | st, [] => (st, .ok ())
  | st, metric :: rest =>
    match getItem metric (.num 0) with
    | .error e => (st, .error e)
    | .ok m0 =>
      match getItem metric (.num 2) with
      | .error e => (st, .error e)
      | .ok m2 =>
        match getItem metric (.num 1) with
        | .error e => (st, .error e)
        | .ok m1 =>
          match pyLong m1 with
          | .error e => (st, .error e)
          | .ok ts =>
            match getItem metric (.num 3) with
            | .error e => (st, .error e)
            | .ok m3 =>
              match send_metric st m0 m2 (.num (PyNum.ofInt ts)) (.str "=hostname") m3 with
              | (st', .error e) => (st', .error e)
              | (st', .ok _) => collMetricsLoop st' rest

/-- The per-disk stats loop of `parse_collector` (lines 261-267): `%` is
deleted and `/` replaced by `_` in the stat name. -/
def collIoStatsInner (tstamp : Int) (host_name : JVal) (disk_name : String) :
    EmSt → List (String × JVal) → EmSt × Except PyExc Unit
  | st, [] => (st, .ok ())
  | st, (name, value) :: rest =>
    match send_metric st
        (.str ("system.io." ++ String.mk
          ((name.toList.filter (· ≠ '%')).map fun c => if c = '/' then '_' else c)))
        value (.num (PyNum.ofInt tstamp)) host_name
        (.obj [("disk", .str disk_name)]) with
    | (st', .error e) => (st', .error e)
    | (st', .ok _) => collIoStatsInner tstamp host_name disk_name st' rest

/-- The `ioStats` disk loop of `parse_collector` (lines 259-267). -/
def collIoStatsLoop (tstamp : Int) (host_name : JVal) :
    EmSt → List (String × JVal) → EmSt × Except PyExc Unit
  | st, [] => (st, .ok ())
  | st, (disk_name, stats) :: rest =>
    match pyItems stats with
    | .error e => (st, .error e)
    | .ok sts =>
      match collIoStatsInner tstamp host_name disk_name st sts with
      | (st', .error e) => (st', .error e)
      | (st', .ok _) => collIoStatsLoop tstamp host_name st' rest

/-- The fixed `system.load.*` name list of `parse_collector` (lines 278-280). -/
def loadMetricNames : List String :=
  ["system.load.1", "system.load.15", "system.load.5",
   "system.load.norm.1", "system.load.norm.15", "system.load.norm.5"]

/-- The `system.load.*` loop of `parse_collector` (lines 281-285). -/
def collLoadsLoop (message : JVal) (tstamp : Int) (host_name : JVal) :
    EmSt → List String → EmSt × Except PyExc Unit
  | st, [] => (st, .ok ())
  | st, metric_name :: rest =>
    match pyContains message (.str metric_name) with
    | .error e => (st, .error e)
    | .ok false => collLoadsLoop message tstamp host_name st rest
    | .ok true =>
      match getItem message (.str metric_name) with
      | .error e => (st, .error e)
      | .ok value =>
        match send_metric st (.str metric_name) value (.num (PyNum.ofInt tstamp))
            host_name .none with
        | (st', .error e) => (st', .error e)
        | (st', .ok _) => collLoadsLoop message tstamp host_name st' rest

/-- `emitter.parse_collector`. -/
def parse_collector (st : EmSt) (message : JVal) : EmSt × Except PyExc Unit :=
  match getItem message (.str "collection_timestamp") with
  | .error e => (st, .error e)
  | .ok ctv =>
    match pyLong ctv with
    | .error e => (st, .error e)
    | .ok tstamp =>
      match getItem message (.str "internalHostname") with
      | .error e => (st, .error e)
      | .ok host_name =>
        match pyItems message with
        | .error e => (st, .error e)
        | .ok items =>
          match collGaugesLoop tstamp host_name st items with
          | (st1, .error e) => (st1, .error e)
          | (st1, .ok _) =>
            match getItem message (.str "metrics") with
            | .error e => (st1, .error e)
            | .ok metricsV =>
              match pyIter metricsV with
              | .error e => (st1, .error e)
              | .ok ms =>
                match collMetricsLoop st1 ms with
                | (st2, .error e) => (st2, .error e)
                | (st2, .ok _) =>
                  match getItem message (.str "ioStats") with
                  | .error e => (st2, .error e)
                  | .ok ioV =>
                    match pyItems ioV with
                    | .error e => (st2, .error e)
                    | .ok disks =>
                      match collIoStatsLoop tstamp host_name st2 disks with
                      | (st3, .error e) => (st3, .error e)
                      | (st3, .ok _) =>
                        match getItem message (.str "processes") with
                        | .error e => (st3, .error e)
                        | .ok procs =>
                          match getItem procs (.str "processes") with
                          | .error e => (st3, .error e)
                          | .ok plist =>
                            match pyLen plist with
                            | .error e => (st3, .error e)
                            | .ok n =>
                              match send_metric st3 (.str "system.processes.count")
                                  (.num (PyNum.ofInt n)) (.num (PyNum.ofInt tstamp)) host_name .none with
                              | (st4, .error e) => (st4, .error e)
                              | (st4, .ok _) =>
                                collLoadsLoop message tstamp host_name st4 loadMetricNames

/-- The meta-tag loop of `parse_meta_tags` (lines 305-307). -/
def metaLoop (meta : JVal) : EmSt → List String → EmSt × Except PyExc Unit
  | st, [] => (st, .ok ())
  | st, tag :: rest =>
    match pyContains meta (.str tag) with
    | .error e => (st, .error e)
    | .ok false => metaLoop meta st rest
    | .ok true =>
      match getItem meta (.str tag) with
      | .error e => (st, .error e)
      | .ok v =>
        metaLoop meta {st with point_tags := dictInsert st.point_tags tag v} rest

/-- `emitter.parse_meta_tags`. -/
def parse_meta_tags (st : EmSt) (message : JVal) : EmSt × Except PyExc Unit :=
  match pyContains message (.str "meta") with
  | .error e => (st, .error e)
  | .ok false => (st, .ok ())
  | .ok true =>
    match getItem message (.str "meta") with
    | .error e => (st, .error e)
    | .ok meta => metaLoop meta st st.meta_tags

/-- The `self.source_tags.append(tag)` of line 331. -/
def appendSource (st : EmSt) (tag : JVal) : EmSt :=
  {st with source_tags := st.source_tags ++ [tag]}

/-- The point-tag store `self.point_tags[k] = v` of lines 307 and 336. -/
def insertPointTag (st : EmSt) (k : String) (v : JVal) : EmSt :=
  {st with point_tags := dictInsert st.point_tags k v}

/-- The host-tag loop of `parse_host_tags` (lines 330-336): each raw tag is
appended to `source_tags`; a tag containing a colon is split, both pieces are
sanitized and stored as a point tag. -/
def hostTagsLoop : EmSt → List JVal → EmSt × Except PyExc Unit
  | st, [] => (st, .ok ())
  | st, tag :: rest =>
    match pyContains tag (.str ":") with
    | .error e => (appendSource st tag, .error e)
    | .ok false => hostTagsLoop (appendSource st tag) rest
    | .ok true =>
      match pySplitAttr tag ':' with
      | .error e => (appendSource st tag, .error e)
      | .ok (p0 :: p1 :: _) =>
        hostTagsLoop
          (insertPointTag (appendSource st tag)
            (sanitize p0) (.str (sanitize p1))) rest
      | .ok _ => (appendSource st tag, .error .indexError)

/-- `emitter.parse_host_tags`. -/
def parse_host_tags (st : EmSt) (message : JVal) : EmSt × Except PyExc Unit :=
  match pyContains message (.str "host-tags") with
  | .error e => (st, .error e)
  | .ok false => (st, .ok ())
  | .ok true =>
    match getItem message (.str "host-tags") with
    | .error e => (st, .error e)
    | .ok host_tags =>
      if ¬truthy host_tags then (st, .ok ())
      else
        match pyContains host_tags (.str "system") with
        | .error e => (st, .error e)
        | .ok false => (st, .ok ())
        | .ok true =>
          match getItem host_tags (.str "system") with
          | .error e => (st, .error e)
          | .ok sys =>
            match pyIter sys with
            | .error e => (st, .error e)
            | .ok tags => hostTagsLoop st tags

/-- The log line produced at line 58 of the source when `wf_host` is absent. -/
def hostMissingMsg : String :=
  "Agent config missing wf_host (the Wavefront proxy host)"

/-- The debug line produced at line 69 of the source. -/
def debugMsg : String := "Wavefront Emitter"

/-- The error text produced at lines 83-85 on a connect failure. -/
def connectErrMsg : String := "Wavefront Emitter: Unable to connect"

/-- The log line produced at line 106 by the bare `except` handler. -/
def parseErrMsg : String := "Unable to parse message"

/-- The dry-run flag computation of lines 65-67: true iff `wf_dry_run` is
present and equal to `yes` or `true`. -/
def dryFlagOf (agent_config : List (String × String)) : Bool :=
  match agent_config.lookup "wf_dry_run" with
  | some v => v = "yes" ∨ v = "true"
  | Option.none => false

/-- The meta-tag list computation of lines 71-73: split `wf_meta_tags` on
commas and strip each piece. -/
def metaTagsOf (v : String) : List String :=
  (pySplit v ',').map fun t => String.mk (trimChars t.toList)

/-- The unguarded `log.error(...)` call at line 58: `None` or a logger
without an `error` attribute raises `AttributeError`. -/
def logErrorCall (log : Option Logger) (msg : String) (st : EmSt) :
    EmSt × Except PyExc Unit :=
  match log with
  | Option.none => (st, .error .attributeError)
  | some lg =>
    if lg.hasError then ({st with logs := st.logs ++ [msg]}, .ok ())
    else (st, .error .attributeError)

/-- The message-parsing part of the `try` block (lines 94-101): a payload
with a `series` key goes to `parse_dogstatsd`, any other payload through
`parse_host_tags`, `parse_meta_tags` and `parse_collector` in that order. -/
def dispatchParse (st : EmSt) (message : JVal) : EmSt × Except PyExc Unit :=
  match pyContains message (.str "series") with
  | .error e => (st, Except.error e)
  | .ok true => parse_dogstatsd st message
  | .ok false =>
    match parse_host_tags st message with
    | (st1, .error e) => (st1, .error e)
    | (st1, .ok _) =>
      match parse_meta_tags st1 message with
      | (st2, .error e) => (st2, .error e)
      | (st2, .ok _) => parse_collector st2 message

/-- The body of the `try` block of `emitter.__call__` (lines 76-101): connect
to the proxy unless in dry-run mode (a failed connect is logged — or printed
when no log object was supplied — and returns early), then parse via
`dispatchParse`.  The `connectOk` oracle decides whether `sock.connect`
succeeds.  An `.error` result is an exception travelling to the bare
`except` of line 104. -/
def connFailed (st : EmSt) : EmSt :=
  {st with sock := .created,
           sockEvents := st.sockEvents ++ [.create, .connectAttempt]}

/-- The state after `socket()`, `settimeout` and a successful `connect`
(lines 78-81). -/
def connSock (st : EmSt) : EmSt :=
  {st with sock := .connected,
           sockEvents := st.sockEvents ++ [.create, .connectAttempt]}

/-- The state after `self.sock = None` (line 92, dry-run mode). -/
def drySock (st : EmSt) : EmSt :=
  {st with sock := .noSock}

def tryBody (st : EmSt) (message : JVal) (log : Option Logger)
    (connectOk : Bool) : EmSt × Except PyExc Unit :=
  if ¬st.proxy_dry_run then
    if connectOk then
      dispatchParse (connSock st) message
    else
      match log with
      | Option.none =>
        ({connFailed st with errPrints := st.errPrints ++ [connectErrMsg]}, .ok ())
      | some lg =>
        if lg.hasError then
          ({connFailed st with logs := st.logs ++ [connectErrMsg]}, .ok ())
        else (connFailed st, .error .attributeError)
  else
    dispatchParse (drySock st) message

/-- The `int(agent_config['wf_port'])` computation of lines 61-64:
`ValueError` when present and unparseable, default 2878 when absent. -/
def portStage (agent_config : List (String × String)) : Except PyExc Int :=
  match agent_config.lookup "wf_port" with
  | some v =>
    match pyInt v with
    | some p => .ok p
    | Option.none => .error .valueError
  | Option.none => .ok 2878

/-- The guarded `log.debug` call of lines 68-69. -/
def debugStage (st : EmSt) (log : Option Logger) : EmSt × Except PyExc Unit :=
  match log with
  | Option.none => (st, .ok ())
  | some lg =>
    if lg.hasDebug then ({st with logs := st.logs ++ [debugMsg]}, .ok ())
    else (st, .error .attributeError)

/-- The `wf_meta_tags` parsing of lines 71-73. -/
def metaStage (st : EmSt) (agent_config : List (String × String)) : EmSt :=
  match agent_config.lookup "wf_meta_tags" with
  | some v => {st with meta_tags := metaTagsOf v}
  | Option.none => st

/-- The bare `except` handler of lines 104-107: any exception from the `try`
body is intercepted and handed to `log.err` — an attribute the source never
guards; `None` or a logger without `err` turns the handler itself into an
`AttributeError` that keeps propagating. -/
def exceptStage (log : Option Logger) :
    EmSt × Except PyExc Unit → EmSt × Option PyExc
  | (st4, .ok _) => (st4, Option.none)
  | (st4, .error _) =>
    match log with
    | Option.none => (st4, some PyExc.attributeError)
    | some lg =>
      if lg.hasErr then
        ({st4 with logs := st4.logs ++ [parseErrMsg]}, Option.none)
      else (st4, some PyExc.attributeError)

/-- The `finally` block of lines 109-113: when a socket object exists and the
mode is not dry-run, `shutdown` then `close` are called; `shutdown` on a
socket that was created but never connected raises, so `close` is not reached
and the error replaces any pending exception. -/
def finallyStage : EmSt × Option PyExc → EmSt × Option PyExc
  | (st5, pending) =>
    if st5.sock ≠ .noSock ∧ ¬st5.proxy_dry_run then
      if st5.sock = .connected then
        ({st5 with sock := .closed,
                   sockEvents := st5.sockEvents ++ [.shutdownCall, .closeCall]},
          pending)
      else
        ({st5 with sockEvents := st5.sockEvents ++ [.shutdownCall]},
          some .socketError)
    else (st5, pending)

/-- `emitter.__call__` from the dry-run flag assignment (line 65) onward:
debug log, meta-tag configuration, the `try` body, the bare `except`, and
the `finally` block. -/
def callEmitterRest (st : EmSt) (message : JVal) (log : Option Logger)
    (agent_config : List (String × String)) (connectOk : Bool) :
    EmSt × Option PyExc :=
  match debugStage {st with proxy_dry_run := dryFlagOf agent_config} log with
  | (st2, .error e) => (st2, some e)
  | (st2, .ok _) =>
    finallyStage (exceptStage log
      (tryBody (metaStage st2 agent_config) message log connectOk))

/-- `emitter.__call__`.  Returns the state after the call together with
`some e` when the exception `e` escapes to the caller, `none` when the call
returns normally.  Stages, as in the source: the `wf_host` check (line 57),
`int(wf_port)` (line 62, before the `try`, so its `ValueError` propagates),
then `callEmitterRest`. -/
def callEmitter (st : EmSt) (message : JVal) (log : Option Logger)
    (agent_config : List (String × String)) (connectOk : Bool) :
    EmSt × Option PyExc :=
  match agent_config.lookup "wf_host" with
  | Option.none =>
    match logErrorCall log hostMissingMsg st with
    | (st', .error e) => (st', some e)
    | (st', .ok _) => (st', Option.none)
  | some _proxy_host =>
    match portStage agent_config with
    | .error e => (st, some e)
    | .ok _proxy_port => callEmitterRest st message log agent_config connectOk

/-- The arguments of one invocation of the emitter by the hosting agent. -/
structure CallArgs where
  message : JVal
  log : Option Logger
  agent_config : List (String × String)
  connectOk : Bool

/-- A sequence of invocations on one `emitter` instance; exceptions escape to
the host, which keeps the instance and invokes it again. -/
def runCalls : EmSt → List CallArgs → EmSt
  | st, [] => st
  | st, a :: rest =>
    runCalls (callEmitter st a.message a.log a.agent_config a.connectOk).1 rest

/-! ### Lemmas about the tag-string encoder -/

theorem tagStep_foldl_filter_isStr (skip : JVal) :
    ∀ (kvs : List (String × JVal)) (acc : String),
      kvs.foldl (tagStep skip) acc =
        (kvs.filter fun kv => kv.2.isStr).foldl (tagStep skip) acc := by
  intro kvs
  induction kvs with
  | nil => intro acc; rfl
  | cons kv rest ih =>
    intro acc
    by_cases h : kv.2.isStr
    · have hfil : List.filter (fun kv => kv.2.isStr) (kv :: rest) =
          kv :: List.filter (fun kv => kv.2.isStr) rest := by
        simp [List.filter_cons, h]
      rw [hfil, List.foldl_cons, List.foldl_cons, ih]
    · have hstep : tagStep skip acc kv = acc := by
        simp [tagStep, h]
      have hfil : List.filter (fun kv => kv.2.isStr) (kv :: rest) =
          List.filter (fun kv => kv.2.isStr) rest := by
        simp [List.filter_cons, h]
      rw [hfil, List.foldl_cons, hstep, ih]

theorem tagStep_foldl_skip_filter (k : String) :
    ∀ (kvs : List (String × JVal)) (acc : String),
      kvs.foldl (tagStep (.str k)) acc =
        (kvs.filter fun kv => kv.1 ≠ k).foldl (tagStep JVal.none) acc := by
  intro kvs
  induction kvs with
  | nil => intro acc; rfl
  | cons kv rest ih =>
    intro acc
    by_cases hk : kv.1 = k
    · have hstep : tagStep (.str k) acc kv = acc := by
        simp [tagStep, pyEq, hk]
      have hfil : List.filter (fun kv => kv.1 ≠ k) (kv :: rest) =
          List.filter (fun kv => kv.1 ≠ k) rest := by
        simp [List.filter_cons, hk]
      rw [hfil, List.foldl_cons, hstep, ih]
    · have hstep : tagStep (.str k) acc kv = tagStep JVal.none acc kv := by
        simp [tagStep, pyEq, hk]
      have hfil : List.filter (fun kv => kv.1 ≠ k) (kv :: rest) =
          kv :: List.filter (fun kv => kv.1 ≠ k) rest := by
        simp [List.filter_cons, hk]
      rw [hfil, List.foldl_cons, List.foldl_cons, hstep, ih]

theorem build_tag_string_obj (kvs : List (String × JVal)) (skip : JVal) :
    build_tag_string (.obj kvs) skip = .ok (tagFold kvs skip) := by
  cases kvs <;> rfl

/-! ### Lemmas about dictionaries -/

theorem lookup_map_keyFix (f : String × JVal → String × JVal)
    (hf : ∀ kv, (f kv).1 = kv.1) :
    ∀ (d : List (String × JVal)) (k' : String),
      ((d.map f).lookup k').isSome = (d.lookup k').isSome := by
  intro d
  induction d with
  | nil => intro k'; rfl
  | cons kv rest ih =>
    intro k'
    have hkey : (f kv).1 = kv.1 := hf kv
    cases hbeq : k' == kv.1 with
    | true =>
      simp [List.lookup, hkey, hbeq]
    | false =>
      simp [List.lookup, hkey, hbeq, ih k']

theorem lookup_append_isSome (d₁ d₂ : List (String × JVal)) (k' : String)
    (h : (d₁.lookup k').isSome) : ((d₁ ++ d₂).lookup k').isSome := by
  induction d₁ with
  | nil => simp [List.lookup] at h
  | cons kv rest ih =>
    cases hbeq : k' == kv.1 with
    | true => simp [List.lookup, hbeq]
    | false =>
      simp only [List.lookup, hbeq] at h
      simp only [List.cons_append, List.lookup, hbeq]
      exact ih h

theorem dictInsert_lookup_isSome (d : List (String × JVal)) (k : String)
    (v : JVal) (k' : String) (h : (d.lookup k').isSome) :
    ((dictInsert d k v).lookup k').isSome := by
  unfold dictInsert
  by_cases hex : d.any (fun kv => kv.1 = k)
  · rw [if_pos hex]
    have hf : ∀ kv : String × JVal,
        ((fun kv : String × JVal => if kv.1 = k then (k, v) else kv) kv).1 = kv.1 := by
      intro kv
      by_cases hkv : kv.1 = k
      · simp [hkv]
      · simp [hkv]
    rw [lookup_map_keyFix _ hf]
    exact h
  · rw [if_neg hex]
    exact lookup_append_isSome d [(k, v)] k' h

theorem any_of_lookup_isSome (kvs : List (String × JVal)) (k : String)
    (h : (kvs.lookup k).isSome) : kvs.any (fun kv => kv.1 = k) = true := by
  induction kvs with
  | nil => simp [List.lookup] at h
  | cons kv rest ih =>
    cases hbeq : k == kv.1 with
    | true =>
      have : kv.1 = k := (beq_iff_eq.mp hbeq).symm
      simp [List.any_cons, this]
    | false =>
      simp only [List.lookup, hbeq] at h
      simp [List.any_cons, ih h]

/-! ### The parse-layer invariant

Every parsing method leaves the socket, the dry-run flag, the socket-event
trace and the configured meta-tag list untouched, never removes a point-tag
key, and only appends to the emitted lines — with every line appended while
the dry-run flag is set going to standard output, not the socket. -/

structure ParseInv (s t : EmSt) : Prop where
  dry : t.proxy_dry_run = s.proxy_dry_run
  sk : t.sock = s.sock
  ev : t.sockEvents = s.sockEvents
  meta : t.meta_tags = s.meta_tags
  pt : ∀ k, (s.point_tags.lookup k).isSome → (t.point_tags.lookup k).isSome
  ln : ∃ new, t.lines = s.lines ++ new ∧
    (s.proxy_dry_run = true → ∀ l ∈ new, l.viaSocket = false)

theorem ParseInv.refl (s : EmSt) : ParseInv s s := by
  refine ⟨rfl, rfl, rfl, rfl, fun _ h => h, ⟨[], by simp, ?_⟩⟩
  intro _ l hl
  cases hl

theorem ParseInv.trans {a b c : EmSt} (h1 : ParseInv a b) (h2 : ParseInv b c) :
    ParseInv a c := by
  obtain ⟨n1, e1, f1⟩ := h1.ln
  obtain ⟨n2, e2, f2⟩ := h2.ln
  refine ⟨h2.dry.trans h1.dry, h2.sk.trans h1.sk, h2.ev.trans h1.ev,
    h2.meta.trans h1.meta, fun k h => h2.pt k (h1.pt k h), n1 ++ n2, ?_, ?_⟩
  · rw [e2, e1, List.append_assoc]
  · intro hd l hl
    rcases List.mem_append.mp hl with h | h
    · exact f1 hd l h
    · exact f2 (h1.dry.trans hd) l h

theorem ParseInv.of_eq {s : EmSt} {r t : EmSt × Except PyExc Unit}
    (h : ParseInv s r.1) (he : r = t) : ParseInv s t.1 := he ▸ h

theorem ParseInv.addLine (s : EmSt) (l : Line)
    (h : s.proxy_dry_run = true → l.viaSocket = false) :
    ParseInv s {s with lines := s.lines ++ [l]} := by
  refine ⟨rfl, rfl, rfl, rfl, fun _ hk => hk, ⟨[l], rfl, ?_⟩⟩
  intro hd l' hl'
  have hll : l' = l := by simpa using hl'
  rw [hll]
  exact h hd

theorem ParseInv.insertPT (s : EmSt) (k : String) (v : JVal) :
    ParseInv s {s with point_tags := dictInsert s.point_tags k v} := by
  refine ⟨rfl, rfl, rfl, rfl,
    fun k' h => dictInsert_lookup_isSome s.point_tags k v k' h, ⟨[], by simp, ?_⟩⟩
  intro _ l hl
  cases hl

theorem ParseInv.addSource (s : EmSt) (tag : JVal) :
    ParseInv s {s with source_tags := s.source_tags ++ [tag]} := by
  refine ⟨rfl, rfl, rfl, rfl, fun _ h => h, ⟨[], by simp, ?_⟩⟩
  intro _ l hl
  cases hl

theorem send_metric_inv (st : EmSt) (name value tstamp host_name tags : JVal) :
    ParseInv st (send_metric st name value tstamp host_name tags).1 := by
  unfold send_metric
  cases value
  case none => exact ParseInv.refl st
  all_goals
    dsimp only
    split
    · exact ParseInv.refl st
    · split
      · exact ParseInv.refl st
      · split
        · exact ParseInv.refl st
        · split
          · exact ParseInv.refl st
          · exact ParseInv.addLine st _ (fun hd => by simp [hd])

theorem dogPointsLoop_inv (name host_name tags : JVal) :
    ∀ (pts : List JVal) (st : EmSt),
      ParseInv st (dogPointsLoop name host_name tags st pts).1 := by
  intro pts
  induction pts with
  | nil => intro st; exact ParseInv.refl st
  | cons p rest ih =>
    intro st
    unfold dogPointsLoop
    split
    · exact ParseInv.refl st
    · split
      · exact ParseInv.refl st
      · split
        · rename_i heq
          exact ParseInv.of_eq (send_metric_inv st name _ _ host_name tags) heq
        · rename_i st' x heq
          exact ParseInv.trans
            (ParseInv.of_eq (send_metric_inv st name _ _ host_name tags) heq)
            (ih st')

theorem dogMetricsLoop_inv :
    ∀ (ms : List JVal) (st : EmSt), ParseInv st (dogMetricsLoop st ms).1 := by
  intro ms
  induction ms with
  | nil => intro st; exact ParseInv.refl st
  | cons m rest ih =>
    intro st
    unfold dogMetricsLoop
    split
    · exact ParseInv.refl st
    · split
      · exact ParseInv.refl st
      · split
        · exact ParseInv.refl st
        · split
          · exact ParseInv.refl st
          · split
            · exact ParseInv.refl st
            · split
              · exact ParseInv.refl st
              · split
                · rename_i heq
                  exact ParseInv.of_eq (dogPointsLoop_inv _ _ _ _ st) heq
                · rename_i st' x heq
                  exact ParseInv.trans
                    (ParseInv.of_eq (dogPointsLoop_inv _ _ _ _ st) heq) (ih st')

theorem parse_dogstatsd_inv (st : EmSt) (message : JVal) :
    ParseInv st (parse_dogstatsd st message).1 := by
  unfold parse_dogstatsd
  split
  · exact ParseInv.refl st
  · split
    · exact ParseInv.refl st
    · exact dogMetricsLoop_inv _ st

theorem collGaugesLoop_inv (tstamp : Int) (host_name : JVal) :
    ∀ (items : List (String × JVal)) (st : EmSt),
      ParseInv st (collGaugesLoop tstamp host_name st items).1 := by
  intro items
  induction items with
  | nil => intro st; exact ParseInv.refl st
  | cons kv rest ih =>
    intro st
    unfold collGaugesLoop
    split
    · split
      · rename_i heq
        exact ParseInv.of_eq (send_metric_inv st _ _ _ host_name .none) heq
      · rename_i st' x heq
        exact ParseInv.trans
          (ParseInv.of_eq (send_metric_inv st _ _ _ host_name .none) heq) (ih st')
    · exact ih st

theorem collMetricsLoop_inv :
    ∀ (ms : List JVal) (st : EmSt), ParseInv st (collMetricsLoop st ms).1 := by
  intro ms
  induction ms with
  | nil => intro st; exact ParseInv.refl st
  | cons m rest ih =>
    intro st
    unfold collMetricsLoop
    split
    · exact ParseInv.refl st
    · split
      · exact ParseInv.refl st
      · split
        · exact ParseInv.refl st
        · split
          · exact ParseInv.refl st
          · split
            · exact ParseInv.refl st
            · split
              · rename_i heq
                exact ParseInv.of_eq (send_metric_inv st _ _ _ _ _) heq
              · rename_i st' x heq
                exact ParseInv.trans
                  (ParseInv.of_eq (send_metric_inv st _ _ _ _ _) heq) (ih st')

theorem collIoStatsInner_inv (tstamp : Int) (host_name : JVal) (disk_name : String) :
    ∀ (sts : List (String × JVal)) (st : EmSt),
      ParseInv st (collIoStatsInner tstamp host_name disk_name st sts).1 := by
  intro sts
  induction sts with
  | nil => intro st; exact ParseInv.refl st
  | cons kv rest ih =>
    intro st
    unfold collIoStatsInner
    split
    · rename_i heq
      exact ParseInv.of_eq (send_metric_inv st _ _ _ host_name _) heq
    · rename_i st' x heq
      exact ParseInv.trans
        (ParseInv.of_eq (send_metric_inv st _ _ _ host_name _) heq) (ih st')

theorem collIoStatsLoop_inv (tstamp : Int) (host_name : JVal) :
    ∀ (disks : List (String × JVal)) (st : EmSt),
      ParseInv st (collIoStatsLoop tstamp host_name st disks).1 := by
  intro disks
  induction disks with
  | nil => intro st; exact ParseInv.refl st
  | cons kv rest ih =>
    intro st
    unfold collIoStatsLoop
    split
    · exact ParseInv.refl st
    · split
      · rename_i heq
        exact ParseInv.of_eq (collIoStatsInner_inv tstamp host_name _ _ st) heq
      · rename_i st' x heq
        exact ParseInv.trans
          (ParseInv.of_eq (collIoStatsInner_inv tstamp host_name _ _ st) heq)
          (ih st')

theorem collLoadsLoop_inv (message : JVal) (tstamp : Int) (host_name : JVal) :
    ∀ (names : List String) (st : EmSt),
      ParseInv st (collLoadsLoop message tstamp host_name st names).1 := by
  intro names
  induction names with
  | nil => intro st; exact ParseInv.refl st
  | cons nm rest ih =>
    intro st
    unfold collLoadsLoop
    split
    · exact ParseInv.refl st
    · exact ih st
    · split
      · exact ParseInv.refl st
      · split
        · rename_i heq
          exact ParseInv.of_eq (send_metric_inv st _ _ _ host_name .none) heq
        · rename_i st' x heq
          exact ParseInv.trans
            (ParseInv.of_eq (send_metric_inv st _ _ _ host_name .none) heq)
            (ih st')

theorem parse_collector_inv (st : EmSt) (message : JVal) :
    ParseInv st (parse_collector st message).1 := by
  unfold parse_collector
  split
  · exact ParseInv.refl st
  · split
    · exact ParseInv.refl st
    · split
      · exact ParseInv.refl st
      · split
        · exact ParseInv.refl st
        · split
          · rename_i heq
            exact ParseInv.of_eq (collGaugesLoop_inv _ _ _ st) heq
          · rename_i st1 x heq
            have h1 : ParseInv st st1 :=
              ParseInv.of_eq (collGaugesLoop_inv _ _ _ st) heq
            refine ParseInv.trans h1 ?_
            split
            · exact ParseInv.refl st1
            · split
              · exact ParseInv.refl st1
              · split
                · rename_i heq2
                  exact ParseInv.of_eq (collMetricsLoop_inv _ st1) heq2
                · rename_i st2 x2 heq2
                  have h2 : ParseInv st1 st2 :=
                    ParseInv.of_eq (collMetricsLoop_inv _ st1) heq2
                  refine ParseInv.trans h2 ?_
                  split
                  · exact ParseInv.refl st2
                  · split
                    · exact ParseInv.refl st2
                    · split
                      · rename_i heq3
                        exact ParseInv.of_eq (collIoStatsLoop_inv _ _ _ st2) heq3
                      · rename_i st3 x3 heq3
                        have h3 : ParseInv st2 st3 :=
                          ParseInv.of_eq (collIoStatsLoop_inv _ _ _ st2) heq3
                        refine ParseInv.trans h3 ?_
                        split
                        · exact ParseInv.refl st3
                        · split
                          · exact ParseInv.refl st3
                          · split
                            · exact ParseInv.refl st3
                            · split
                              · rename_i heq4
                                exact ParseInv.of_eq
                                  (send_metric_inv st3 _ _ _ _ _) heq4
                              · rename_i st4 x4 heq4
                                have h4 : ParseInv st3 st4 :=
                                  ParseInv.of_eq
                                    (send_metric_inv st3 _ _ _ _ _) heq4
                                exact ParseInv.trans h4
                                  (collLoadsLoop_inv _ _ _ _ st4)

theorem metaLoop_inv (meta : JVal) :
    ∀ (tags : List String) (st : EmSt), ParseInv st (metaLoop meta st tags).1 := by
  intro tags
  induction tags with
  | nil => intro st; exact ParseInv.refl st
  | cons t rest ih =>
    intro st
    unfold metaLoop
    split
    · exact ParseInv.refl st
    · exact ih st
    · split
      · exact ParseInv.refl st
      · exact ParseInv.trans (ParseInv.insertPT st t _) (ih _)

theorem parse_meta_tags_inv (st : EmSt) (message : JVal) :
    ParseInv st (parse_meta_tags st message).1 := by
  unfold parse_meta_tags
  split
  · exact ParseInv.refl st
  · exact ParseInv.refl st
  · split
    · exact ParseInv.refl st
    · exact metaLoop_inv _ _ st

theorem hostTagsLoop_inv :
    ∀ (tags : List JVal) (st : EmSt), ParseInv st (hostTagsLoop st tags).1 := by
  intro tags
  induction tags with
  | nil => intro st; exact ParseInv.refl st
  | cons t rest ih =>
    intro st
    unfold hostTagsLoop
    split
    · exact ParseInv.addSource st t
    · exact ParseInv.trans (ParseInv.addSource st t) (ih _)
    · split
      · exact ParseInv.addSource st t
      · exact ParseInv.trans (ParseInv.addSource st t)
          (ParseInv.trans (ParseInv.insertPT _ _ _) (ih _))
      · exact ParseInv.addSource st t

theorem parse_host_tags_inv (st : EmSt) (message : JVal) :
    ParseInv st (parse_host_tags st message).1 := by
  unfold parse_host_tags
  split
  · exact ParseInv.refl st
  · exact ParseInv.refl st
  · split
    · exact ParseInv.refl st
    · split
      · exact ParseInv.refl st
      · split
        · exact ParseInv.refl st
        · exact ParseInv.refl st
        · split
          · exact ParseInv.refl st
          · split
            · exact ParseInv.refl st
            · exact hostTagsLoop_inv _ st

theorem dispatchParse_inv (st : EmSt) (message : JVal) :
    ParseInv st (dispatchParse st message).1 := by
  unfold dispatchParse
  split
  · exact ParseInv.refl st
  · exact parse_dogstatsd_inv st message
  · split
    · rename_i heq
      exact ParseInv.of_eq (parse_host_tags_inv st message) heq
    · rename_i st1 x heq
      have h1 : ParseInv st st1 :=
        ParseInv.of_eq (parse_host_tags_inv st message) heq
      refine ParseInv.trans h1 ?_
      split
      · rename_i heq2
        exact ParseInv.of_eq (parse_meta_tags_inv st1 message) heq2
      · rename_i st2 x2 heq2
        have h2 : ParseInv st1 st2 :=
          ParseInv.of_eq (parse_meta_tags_inv st1 message) heq2
        exact ParseInv.trans h2 (parse_collector_inv st2 message)

/-- `tagFold` with a string skip key equals `tagFold` with no skip key over
the tag list with that key deleted: the promoted key contributes nothing. -/
theorem tagFold_skip (kvs : List (String × JVal)) (k : String) :
    tagFold kvs (.str k) = tagFold (kvs.filter fun kv => kv.1 ≠ k) JVal.none :=
  tagStep_foldl_skip_filter k kvs ""

/-! ### Claim theorems -/

/-- C6: the name normalizer is a pure function on strings mapping, character
by character, each uppercase letter to a dot followed by its lowercased form
and passing every other character through unchanged; in particular
`memPhysFree ↦ mem.phys.free` and `cpuGuest ↦ cpu.guest`. -/
theorem c6_name_normalizer :
    (∀ s : String, convert_key_to_dotted_name s =
      String.mk ((s.toList.map fun c =>
        if c.isUpper then ['.', c.toLower] else [c]).flatten)) ∧
    convert_key_to_dotted_name "memPhysFree" = "mem.phys.free" ∧
    convert_key_to_dotted_name "cpuGuest" = "cpu.guest" := by
  refine ⟨?_, rfl, rfl⟩
  intro s
  unfold convert_key_to_dotted_name
  have haux : ∀ (l : List Char) (acc : List Char),
      l.foldl (fun buf c => if c.isUpper then buf ++ ['.', c.toLower]
        else buf ++ [c]) acc
        = acc ++ ((l.map fun c =>
            if c.isUpper then ['.', c.toLower] else [c]).flatten) := by
    intro l
    induction l with
    | nil => intro acc; simp
    | cons c rest ih =>
      intro acc
      by_cases h : c.isUpper
      · simp [h, ih, List.append_assoc]
      · simp [h, ih, List.append_assoc]
  rw [haux]
  simp

/-- C7: for every tag set, entries whose value is not a string are dropped by
the tag-string encoder: its output on any tag dict equals its output on the
dict restricted to string-valued entries, so no key with a non-string value
ever contributes to the encoded fragment. -/
theorem c7_nonstring_tags_dropped (kvs : List (String × JVal)) (skip : JVal) :
    build_tag_string (.obj kvs) skip =
      build_tag_string (.obj (kvs.filter fun kv => kv.2.isStr)) skip := by
  rw [build_tag_string_obj, build_tag_string_obj]
  unfold tagFold
  rw [tagStep_foldl_filter_isStr]

/-- The collector payload of C5. -/
def c5payload : JVal := .obj [
  ("collection_timestamp", .num ⟨10005, 1⟩),
  ("internalHostname", .str "h1"),
  ("cpuIdle", .num ⟨993, 1⟩),
  ("metrics", .arr []),
  ("ioStats", .obj []),
  ("processes", .obj [("processes", .arr [.num 1, .num 2, .num 3])])]

/-- C5: collector extraction of the payload
`{"collection_timestamp": 1000.5, "internalHostname": "h1", "cpuIdle": 99.3,
"metrics": [], "ioStats": {}, "processes": {"processes": [1,2,3]}}` with
empty cached point tags produces exactly two metric points:
`system.cpu.idle` value 99.3 host h1 and `system.processes.count` value 3
host h1, both with truncated timestamp 1000 and an empty tag fragment. -/
theorem c5_collector_extraction :
    parse_collector initSt c5payload =
      ({initSt with lines := [
        { name := .str "system.cpu.idle", value := .num ⟨993, 1⟩, tstamp := 1000,
          host := .str "h1", tag_str := "", viaSocket := false },
        { name := .str "system.processes.count", value := .num ⟨3, 0⟩,
          tstamp := 1000, host := .str "h1", tag_str := "",
          viaSocket := false }]}, .ok ()) := rfl

/-- C2 counterexample: in the dogstatsd tag loop, the token `a:b:c` is split
on every colon and stores value `b` (not `b:c`, refuting "everything after
the first colon"), and the colon-free token `nocolon` raises `IndexError`
instead of being skipped. -/
theorem c2_counterexample :
    dogstatsdTags [.str "a:b:c"] [] = .ok [("a", .str "b")] ∧
    dogstatsdTags [.str "nocolon"] [] = .error .indexError := ⟨rfl, rfl⟩

/-- C2 (amended): each tag token is split on every colon; the stored value
for a token is the piece between the first and second colon, keyed by the
piece before the first colon (later assignments overwriting earlier ones);
and a token with no colon raises `IndexError` out of the tag loop (aborting
that payload's processing) rather than being skipped. -/
theorem c2_amended :
    (∀ (toks : List String) (acc : List (String × JVal)),
      (toks.all fun t => 2 ≤ (pySplit t ':').length) = true →
      dogstatsdTags (toks.map JVal.str) acc =
        .ok (toks.foldl (fun d t =>
          dictInsert d ((pySplit t ':').headD "")
            (.str ((pySplit t ':').getD 1 ""))) acc)) ∧
    (∀ (pre : List String) (t : String) (post : List String)
        (acc : List (String × JVal)),
      (pre.all fun u => 2 ≤ (pySplit u ':').length) = true →
      (pySplit t ':').length < 2 →
      dogstatsdTags ((pre ++ t :: post).map JVal.str) acc =
        .error .indexError) := by
  constructor
  · intro toks
    induction toks with
    | nil => intro acc _; rfl
    | cons t rest ih =>
      intro acc hall
      rw [List.all_cons, Bool.and_eq_true] at hall
      obtain ⟨ht, hrest⟩ := hall
      have hlen : 2 ≤ (pySplit t ':').length := by
        simpa using ht
      obtain ⟨p0, tl, hsp⟩ : ∃ p0 tl, pySplit t ':' = p0 :: tl := by
        cases hx : pySplit t ':' with
        | nil => rw [hx] at hlen; simp at hlen
        | cons a b => exact ⟨a, b, rfl⟩
      obtain ⟨p1, tl2, hsp2⟩ : ∃ p1 tl2, tl = p1 :: tl2 := by
        cases hx : tl with
        | nil => rw [hx] at hsp; rw [hsp] at hlen; simp at hlen
        | cons a b => exact ⟨a, b, rfl⟩
      rw [hsp2] at hsp
      simp only [List.map_cons, dogstatsdTags, pySplitAttr, hsp, List.foldl_cons,
        List.headD_cons, List.getD]
      rw [ih _ hrest]
      simp [hsp]
  · intro pre
    induction pre with
    | nil =>
      intro t post acc _ hlen
      obtain ⟨p0, hsp⟩ : ∃ p0, pySplit t ':' = [p0] := by
        cases hx : pySplit t ':' with
        | nil =>
          exfalso
          have : (splitChar ':' t.toList).length ≠ 0 := by
            cases t.toList with
            | nil => simp [splitChar]
            | cons c cs =>
              simp only [splitChar]
              split
              · simp
              · split <;> simp
          have hlen0 : (pySplit t ':').length = 0 := by rw [hx]; rfl
          unfold pySplit at hlen0
          rw [List.length_map] at hlen0
          exact this hlen0
        | cons a b =>
          cases hy : b with
          | nil => exact ⟨a, rfl⟩
          | cons c d =>
            exfalso
            rw [hx, hy] at hlen
            simp at hlen
            omega
      simp [dogstatsdTags, pySplitAttr, hsp]
    | cons u pre' ih =>
      intro t post acc hall hlen
      rw [List.all_cons, Bool.and_eq_true] at hall
      obtain ⟨hu, hpre⟩ := hall
      have hulen : 2 ≤ (pySplit u ':').length := by simpa using hu
      obtain ⟨p0, tl, hsp⟩ : ∃ p0 tl, pySplit u ':' = p0 :: tl := by
        cases hx : pySplit u ':' with
        | nil => rw [hx] at hulen; simp at hulen
        | cons a b => exact ⟨a, b, rfl⟩
      obtain ⟨p1, tl2, hsp2⟩ : ∃ p1 tl2, tl = p1 :: tl2 := by
        cases hx : tl with
        | nil => rw [hx] at hsp; rw [hsp] at hulen; simp at hulen
        | cons a b => exact ⟨a, b, rfl⟩
      rw [hsp2] at hsp
      simp only [List.cons_append, List.map_cons, dogstatsdTags, pySplitAttr, hsp]
      exact ih t post _ hpre hlen

/-- C2 witness: the amended characterisation applied to the concrete token
lists `["env:prod", "role:db"]` (all well-formed) and `["x"]` (no colon). -/
theorem c2_amended_witness :
    dogstatsdTags [JVal.str "env:prod", JVal.str "role:db"] [] =
      .ok [("env", .str "prod"), ("role", .str "db")] ∧
    dogstatsdTags [JVal.str "x"] [] = .error .indexError := by
  constructor
  · have h := c2_amended.1 ["env:prod", "role:db"] [] (by decide)
    exact h.trans (by rfl)
  · exact c2_amended.2 [] "x" [] [] (by decide) (by decide)

/-- C4: when the host argument is the sentinel `"=<key>"` and `<key>` is
present in the metric's own tag dict, the emitted line carries `tags[<key>]`
in its host/source field, and its tag fragment is built from the metric tags
and the cached point tags with `<key>` deleted from both — the promoted key
appears in neither part of the fragment. -/
theorem c4_host_substitution (st : EmSt) (name value : JVal) (q : PyNum)
    (kvs : List (String × JVal)) (k : String) (hv : JVal)
    (hval : value ≠ JVal.none)
    (hmem : kvs.lookup k = some hv) :
    send_metric st name value (.num q) (.str ("=" ++ k)) (.obj kvs) =
      ({st with lines := st.lines ++ [{
          name := name, value := value, tstamp := q.trunc, host := hv,
          tag_str := tagFold (kvs.filter fun kv => kv.1 ≠ k) JVal.none ++
                     tagFold (st.point_tags.filter fun kv => kv.1 ≠ k) JVal.none,
          viaSocket := ¬(st.proxy_dry_run ∨ st.sock = .noSock) }]}, .ok ()) := by
  have h1 : truthy (.obj kvs) = true := by
    cases kvs with
    | nil => simp [List.lookup] at hmem
    | cons a b => rfl
  have h2 : getIdx0 (.str ("=" ++ k)) = .ok (.str "=") := by
    cases k with | mk l => rfl
  have h4 : slice1 (.str ("=" ++ k)) = .ok (.str k) := by
    cases k with | mk l => rfl
  have h5 : pyContains (.obj kvs) (.str k) = .ok true := by
    have hc : pyContains (.obj kvs) (.str k) =
        .ok (kvs.any fun kv => kv.1 = k) := rfl
    rw [hc, any_of_lookup_isSome kvs k (by rw [hmem]; rfl)]
  have h6 : getItem (.obj kvs) (.str k) = .ok hv := by
    have hg : getItem (.obj kvs) (.str k) =
        (match kvs.lookup k with
         | some v => Except.ok v
         | Option.none => Except.error PyExc.keyError) := rfl
    rw [hg, hmem]
  have h7 : build_tag_string (.obj kvs) (.str k) =
      .ok (tagFold (kvs.filter fun kv => kv.1 ≠ k) JVal.none) := by
    rw [build_tag_string_obj, tagFold_skip]
  have h8 : build_tag_string (.obj st.point_tags) (.str k) =
      .ok (tagFold (st.point_tags.filter fun kv => kv.1 ≠ k) JVal.none) := by
    rw [build_tag_string_obj, tagFold_skip]
  unfold send_metric
  cases value <;>
    first
    | exact absurd rfl hval
    | simp [h1, h2, h4, h5, h6, h7, h8, pyEq, pyLong]

/-! ### Stage lemmas for `__call__` -/

/-- The supplied log object either is absent or provides `debug` — the shape
under which the configuration stage reaches the `try` block. -/
def logDebugOk : Option Logger → Prop
  | Option.none => True
  | some lg => lg.hasDebug = true

theorem debugStage_fields (st : EmSt) (log : Option Logger) :
    (debugStage st log).1.proxy_dry_run = st.proxy_dry_run ∧
    (debugStage st log).1.sock = st.sock ∧
    (debugStage st log).1.sockEvents = st.sockEvents ∧
    (debugStage st log).1.lines = st.lines ∧
    (debugStage st log).1.point_tags = st.point_tags := by
  cases log with
  | none => exact ⟨rfl, rfl, rfl, rfl, rfl⟩
  | some lg => by_cases h : lg.hasDebug <;> simp [debugStage, h]

theorem debugStage_ok (st : EmSt) (log : Option Logger) (h : logDebugOk log) :
    ∃ st2, debugStage st log = (st2, .ok ()) ∧
      st2.proxy_dry_run = st.proxy_dry_run ∧ st2.sock = st.sock ∧
      st2.sockEvents = st.sockEvents ∧ st2.lines = st.lines ∧
      st2.point_tags = st.point_tags ∧ st2.meta_tags = st.meta_tags := by
  cases log with
  | none => exact ⟨st, rfl, rfl, rfl, rfl, rfl, rfl, rfl⟩
  | some lg =>
    have hd : lg.hasDebug = true := h
    refine ⟨{st with logs := st.logs ++ [debugMsg]}, ?_, rfl, rfl, rfl, rfl, rfl, rfl⟩
    simp [debugStage, hd]

theorem metaStage_fields (st : EmSt) (agent_config : List (String × String)) :
    (metaStage st agent_config).proxy_dry_run = st.proxy_dry_run ∧
    (metaStage st agent_config).sock = st.sock ∧
    (metaStage st agent_config).sockEvents = st.sockEvents ∧
    (metaStage st agent_config).lines = st.lines ∧
    (metaStage st agent_config).point_tags = st.point_tags := by
  cases h : agent_config.lookup "wf_meta_tags" <;> simp [metaStage, h]

theorem exceptStage_fields (log : Option Logger) (r : EmSt × Except PyExc Unit) :
    (exceptStage log r).1.proxy_dry_run = r.1.proxy_dry_run ∧
    (exceptStage log r).1.sock = r.1.sock ∧
    (exceptStage log r).1.sockEvents = r.1.sockEvents ∧
    (exceptStage log r).1.lines = r.1.lines ∧
    (exceptStage log r).1.point_tags = r.1.point_tags := by
  obtain ⟨st4, res⟩ := r
  cases res with
  | ok u => exact ⟨rfl, rfl, rfl, rfl, rfl⟩
  | error e =>
    cases log with
    | none => exact ⟨rfl, rfl, rfl, rfl, rfl⟩
    | some lg => by_cases h : lg.hasErr <;> simp [exceptStage, h]

theorem finallyStage_fields (r : EmSt × Option PyExc) :
    (finallyStage r).1.proxy_dry_run = r.1.proxy_dry_run ∧
    (finallyStage r).1.lines = r.1.lines ∧
    (finallyStage r).1.point_tags = r.1.point_tags ∧
    (finallyStage r).1.logs = r.1.logs := by
  obtain ⟨st5, pending⟩ := r
  unfold finallyStage
  dsimp only
  by_cases h : st5.sock ≠ SockSt.noSock ∧ ¬st5.proxy_dry_run = true
  · rw [if_pos h]
    by_cases h2 : st5.sock = SockSt.connected
    · rw [if_pos h2]
      exact ⟨rfl, rfl, rfl, rfl⟩
    · rw [if_neg h2]
      exact ⟨rfl, rfl, rfl, rfl⟩
  · rw [if_neg h]
    exact ⟨rfl, rfl, rfl, rfl⟩

theorem finallyStage_noSock (r : EmSt × Option PyExc) (h : r.1.sock = SockSt.noSock) :
    finallyStage r = r := by
  obtain ⟨st5, pending⟩ := r
  unfold finallyStage
  dsimp only
  rw [if_neg]
  intro hc
  exact hc.1 h

theorem tryBody_dry (st : EmSt) (message : JVal) (log : Option Logger)
    (cok : Bool) (h : st.proxy_dry_run = true) :
    tryBody st message log cok = dispatchParse (drySock st) message := by
  unfold tryBody
  rw [h]
  simp

theorem tryBody_conn (st : EmSt) (message : JVal) (log : Option Logger)
    (cok : Bool) (h : st.proxy_dry_run = false) (hc : cok = true) :
    tryBody st message log cok = dispatchParse (connSock st) message := by
  unfold tryBody
  rw [h, hc]
  simp

theorem tryBody_connfail (st : EmSt) (message : JVal) (log : Option Logger)
    (cok : Bool) (h : st.proxy_dry_run = false) (hc : cok = false) :
    (tryBody st message log cok).1.sock = SockSt.created ∧
    (tryBody st message log cok).1.sockEvents =
      st.sockEvents ++ [.create, .connectAttempt] ∧
    (tryBody st message log cok).1.proxy_dry_run = false ∧
    (tryBody st message log cok).1.point_tags = st.point_tags ∧
    (tryBody st message log cok).1.lines = st.lines := by
  unfold tryBody
  rw [h, hc]
  cases log with
  | none => simp [connFailed, h]
  | some lg => by_cases he : lg.hasError <;> simp [connFailed, he, h]

theorem tryBody_pt_mono (st : EmSt) (message : JVal) (log : Option Logger)
    (cok : Bool) (k : String) (h : (st.point_tags.lookup k).isSome = true) :
    ((tryBody st message log cok).1.point_tags.lookup k).isSome = true := by
  unfold tryBody
  cases hx : st.proxy_dry_run with
  | true =>
    rw [if_neg (by simp)]
    exact (dispatchParse_inv _ message).pt k h
  | false =>
    rw [if_pos (by simp)]
    cases cok with
    | true =>
      rw [if_pos rfl]
      exact (dispatchParse_inv _ message).pt k h
    | false =>
      rw [if_neg (by simp)]
      cases log with
      | none => exact h
      | some lg =>
        dsimp only
        by_cases he : lg.hasError
        · rw [if_pos he]
          exact h
        · rw [if_neg he]
          exact h


/-- Behaviour of `except` + `finally` applied to the result `r` of the `try`
body, by the socket state `r` left behind: a connected socket is shut down
and closed; a created-but-unconnected socket sees `shutdown` raise
(`socketError` escaping, `close` never reached); with no socket object the
block is a no-op on the state. -/
theorem pipeline_events (log : Option Logger) (r : EmSt × Except PyExc Unit) :
    (r.1.sock = SockSt.connected → r.1.proxy_dry_run = false →
      (finallyStage (exceptStage log r)).1.sockEvents =
        r.1.sockEvents ++ [.shutdownCall, .closeCall]) ∧
    (r.1.sock = SockSt.created → r.1.proxy_dry_run = false →
      (finallyStage (exceptStage log r)).1.sockEvents =
        r.1.sockEvents ++ [.shutdownCall] ∧
      (finallyStage (exceptStage log r)).2 = some .socketError) ∧
    (r.1.sock = SockSt.noSock →
      finallyStage (exceptStage log r) = exceptStage log r) := by
  obtain ⟨he1, he2, he3, he4, he5⟩ := exceptStage_fields log r
  cases hq : exceptStage log r with
  | mk es pending =>
    rw [hq] at he1 he2 he3
    simp only at he1 he2 he3
    refine ⟨?_, ?_, ?_⟩
    · intro hs hd
      unfold finallyStage
      dsimp only
      rw [if_pos ⟨by simp [he2, hs], by simp [he1, hd]⟩, if_pos (he2.trans hs)]
      simp only
      rw [he3]
    · intro hs hd
      unfold finallyStage
      dsimp only
      rw [if_pos ⟨by simp [he2, hs], by simp [he1, hd]⟩,
        if_neg (by simp [he2, hs])]
      exact ⟨by simp only; rw [he3], rfl⟩
    · intro hs
      unfold finallyStage
      dsimp only
      rw [if_neg (by simp [he2, hs])]

theorem callEmitterRest_dry (st : EmSt) (message : JVal) (log : Option Logger)
    (agent_config : List (String × String)) (cok : Bool)
    (hdry : dryFlagOf agent_config = true) :
    (callEmitterRest st message log agent_config cok).1.sockEvents =
      st.sockEvents ∧
    (∀ l ∈ (callEmitterRest st message log agent_config cok).1.lines,
      l ∈ st.lines ∨ l.viaSocket = false) := by
  unfold callEmitterRest
  cases hdb : debugStage {st with proxy_dry_run := dryFlagOf agent_config} log with
  | mk st2 res =>
    have hf := debugStage_fields {st with proxy_dry_run := dryFlagOf agent_config} log
    rw [hdb] at hf
    simp only at hf
    obtain ⟨hf1, hf2, hf3, hf4, hf5⟩ := hf
    cases res with
    | error e =>
      dsimp only
      exact ⟨hf3, fun l hl => Or.inl (hf4 ▸ hl)⟩
    | ok u =>
      dsimp only
      obtain ⟨hm1, hm2, hm3, hm4, hm5⟩ := metaStage_fields st2 agent_config
      have hmtdry : (metaStage st2 agent_config).proxy_dry_run = true := by
        rw [hm1, hf1]
        exact hdry
      rw [tryBody_dry _ message log cok hmtdry]
      have hdp := dispatchParse_inv (drySock (metaStage st2 agent_config)) message
      have hns : (dispatchParse (drySock (metaStage st2 agent_config))
          message).1.sock = SockSt.noSock := hdp.sk
      rw [(pipeline_events log _).2.2 hns]
      obtain ⟨he1, he2, he3, he4, he5⟩ := exceptStage_fields log
        (dispatchParse (drySock (metaStage st2 agent_config)) message)
      obtain ⟨new, hnew, hvia⟩ := hdp.ln
      constructor
      · rw [he3, hdp.ev]
        show (metaStage st2 agent_config).sockEvents = st.sockEvents
        rw [hm3, hf3]
      · intro l hl
        rw [he4, hnew] at hl
        rcases List.mem_append.mp hl with hin | hin
        · left
          have hin2 : l ∈ (metaStage st2 agent_config).lines := hin
          rw [hm4, hf4] at hin2
          exact hin2
        · right
          refine hvia ?_ l hin
          show (metaStage st2 agent_config).proxy_dry_run = true
          exact hmtdry

theorem callEmitterRest_real (st : EmSt) (message : JVal) (log : Option Logger)
    (agent_config : List (String × String)) (cok : Bool)
    (hdry : dryFlagOf agent_config = false) (hdbg : logDebugOk log) :
    (cok = true →
      (callEmitterRest st message log agent_config cok).1.sockEvents =
        st.sockEvents ++ [.create, .connectAttempt, .shutdownCall, .closeCall]) ∧
    (cok = false →
      (callEmitterRest st message log agent_config cok).1.sockEvents =
        st.sockEvents ++ [.create, .connectAttempt, .shutdownCall] ∧
      (callEmitterRest st message log agent_config cok).2 =
        some .socketError) := by
  obtain ⟨st2, hdb, hf1, hf2, hf3, hf4, hf5, hf6⟩ :=
    debugStage_ok {st with proxy_dry_run := dryFlagOf agent_config} log hdbg
  simp only at hf1 hf2 hf3 hf4 hf5
  unfold callEmitterRest
  rw [hdb]
  dsimp only
  obtain ⟨hm1, hm2, hm3, hm4, hm5⟩ := metaStage_fields st2 agent_config
  have hmtdry : (metaStage st2 agent_config).proxy_dry_run = false := by
    rw [hm1, hf1]
    exact hdry
  constructor
  · intro hc
    rw [tryBody_conn _ message log cok hmtdry hc]
    have hdp := dispatchParse_inv (connSock (metaStage st2 agent_config)) message
    have hs : (dispatchParse (connSock (metaStage st2 agent_config))
        message).1.sock = SockSt.connected := hdp.sk
    have hd2 : (dispatchParse (connSock (metaStage st2 agent_config))
        message).1.proxy_dry_run = false := by
      rw [hdp.dry]
      exact hmtdry
    rw [(pipeline_events log _).1 hs hd2, hdp.ev]
    show (metaStage st2 agent_config).sockEvents ++ _ ++ _ = _
    rw [hm3, hf3, List.append_assoc]
    rfl
  · intro hc
    obtain ⟨ht1, ht2, ht3, ht4, ht5⟩ :=
      tryBody_connfail (metaStage st2 agent_config) message log cok hmtdry hc
    obtain ⟨hev, hout⟩ := (pipeline_events log
      (tryBody (metaStage st2 agent_config) message log cok)).2.1 ht1 ht3
    refine ⟨?_, hout⟩
    rw [hev, ht2, hm3, hf3, List.append_assoc]
    rfl

theorem callEmitterRest_pt_mono (st : EmSt) (message : JVal)
    (log : Option Logger) (agent_config : List (String × String)) (cok : Bool)
    (k : String) (h : (st.point_tags.lookup k).isSome = true) :
    (((callEmitterRest st message log agent_config cok).1.point_tags).lookup
      k).isSome = true := by
  unfold callEmitterRest
  cases hdb : debugStage {st with proxy_dry_run := dryFlagOf agent_config} log with
  | mk st2 res =>
    have hf := debugStage_fields {st with proxy_dry_run := dryFlagOf agent_config} log
    rw [hdb] at hf
    simp only at hf
    have h2 : (st2.point_tags.lookup k).isSome = true := by
      rw [hf.2.2.2.2]
      exact h
    cases res with
    | error e => exact h2
    | ok u =>
      dsimp only
      have h3 : ((metaStage st2 agent_config).point_tags.lookup k).isSome = true := by
        rw [(metaStage_fields st2 agent_config).2.2.2.2]
        exact h2
      have h4 := tryBody_pt_mono (metaStage st2 agent_config) message log cok k h3
      have h5 : ((exceptStage log (tryBody (metaStage st2 agent_config) message
          log cok)).1.point_tags.lookup k).isSome = true := by
        rw [(exceptStage_fields log _).2.2.2.2]
        exact h4
      rw [(finallyStage_fields _).2.2.1]
      exact h5

theorem callEmitter_pt_mono (st : EmSt) (message : JVal) (log : Option Logger)
    (agent_config : List (String × String)) (cok : Bool) (k : String)
    (h : (st.point_tags.lookup k).isSome = true) :
    (((callEmitter st message log agent_config cok).1.point_tags).lookup
      k).isSome = true := by
  unfold callEmitter
  cases hh : agent_config.lookup "wf_host" with
  | none =>
    unfold logErrorCall
    cases log with
    | none => exact h
    | some lg =>
      dsimp only
      by_cases he : lg.hasError
      · rw [if_pos he]
        exact h
      · rw [if_neg he]
        exact h
  | some ph =>
    cases hp : portStage agent_config with
    | error e => exact h
    | ok p => exact callEmitterRest_pt_mono st message log agent_config cok k h

/-- C4 witness: concrete host substitution — metric tags
`{hostname: box1, role: db}`, host sentinel `=hostname`, cached point tags
empty — resolves host `box1` and emits only the `role` tag. -/
theorem c4_witness :
    send_metric initSt (.str "m") (.num ⟨420, 1⟩) (.num ⟨5, 0⟩)
      (.str "=hostname")
      (.obj [("hostname", .str "box1"), ("role", .str "db")]) =
    ({initSt with lines := [{
          name := .str "m", value := .num ⟨420, 1⟩,
          tstamp := 5, host := .str "box1", tag_str := " \"role\"=\"db\"",
          viaSocket := false }]}, .ok ()) := by
  have h := c4_host_substitution initSt (.str "m") (.num ⟨420, 1⟩) ⟨5, 0⟩
    [("hostname", .str "box1"), ("role", .str "db")] "hostname" (.str "box1")
    (by intro hx; cases hx) rfl
  exact h.trans (by rfl)

/-- C10: a present but unparseable `wf_port` raises the conversion error past
the engine's boundary in every mode (the `int()` call sits before the `try`
block), with the state — including the log — completely untouched. -/
theorem c10_port_error_propagates (st : EmSt) (message : JVal)
    (log : Option Logger) (agent_config : List (String × String))
    (connectOk : Bool) (v : String)
    (hhost : (agent_config.lookup "wf_host").isSome = true)
    (hport : agent_config.lookup "wf_port" = some v)
    (hbad : pyInt v = Option.none) :
    callEmitter st message log agent_config connectOk =
      (st, some .valueError) := by
  obtain ⟨ph, hh⟩ := Option.isSome_iff_exists.mp hhost
  have hps : portStage agent_config = .error .valueError := by
    unfold portStage
    simp only [hport, hbad]
  unfold callEmitter
  simp only [hh, hps]

/-- C10 witness: `wf_port = "abc"` propagates `ValueError` unchanged. -/
theorem c10_witness :
    callEmitter initSt (.obj []) (some ⟨true, true, true⟩)
      [("wf_host", "h"), ("wf_port", "abc")] true =
      (initSt, some .valueError) :=
  c10_port_error_propagates initSt (.obj []) (some ⟨true, true, true⟩)
    [("wf_host", "h"), ("wf_port", "abc")] true "abc" rfl rfl rfl

/-- C9: (a) with the dry-run flag set to a recognized true value, an
invocation performs no socket operation whatsoever and every line it emits
goes to standard output, for every payload and logging capability; (b) a
configuration without `wf_host` causes exactly one logged error and an early
return — state otherwise untouched, no exception — whenever a logging object
with an `error` attribute is supplied. -/
theorem c9_dry_run_and_missing_host (st : EmSt) (message : JVal)
    (log : Option Logger) (agent_config : List (String × String))
    (connectOk : Bool) :
    (dryFlagOf agent_config = true →
      (callEmitter st message log agent_config connectOk).1.sockEvents =
        st.sockEvents ∧
      (∀ l ∈ (callEmitter st message log agent_config connectOk).1.lines,
        l ∈ st.lines ∨ l.viaSocket = false)) ∧
    (agent_config.lookup "wf_host" = Option.none →
      ∀ lg : Logger, log = some lg → lg.hasError = true →
      callEmitter st message log agent_config connectOk =
        ({st with logs := st.logs ++ [hostMissingMsg]}, Option.none)) := by
  constructor
  · intro hdry
    unfold callEmitter
    cases hh : agent_config.lookup "wf_host" with
    | none =>
      unfold logErrorCall
      cases log with
      | none => exact ⟨rfl, fun l hl => Or.inl hl⟩
      | some lg =>
        dsimp only
        by_cases he : lg.hasError
        · rw [if_pos he]
          exact ⟨rfl, fun l hl => Or.inl hl⟩
        · rw [if_neg he]
          exact ⟨rfl, fun l hl => Or.inl hl⟩
    | some ph =>
      cases hp : portStage agent_config with
      | error e => exact ⟨rfl, fun l hl => Or.inl hl⟩
      | ok p =>
        exact callEmitterRest_dry st message log agent_config connectOk hdry
  · intro hhost lg hlg herr
    subst hlg
    unfold callEmitter
    rw [hhost]
    unfold logErrorCall
    dsimp only
    rw [if_pos herr]

/-- C9 witness: with `wf_dry_run = yes` and no `wf_host`, a full logger —
both conjuncts at one concrete configuration. -/
theorem c9_witness :
    ((callEmitter initSt (.obj []) (some ⟨true, true, true⟩)
      [("wf_dry_run", "yes")] true).1.sockEvents = initSt.sockEvents) ∧
    (callEmitter initSt (.obj []) (some ⟨true, true, true⟩)
      [("wf_dry_run", "yes")] true =
      ({initSt with logs := initSt.logs ++ [hostMissingMsg]}, Option.none)) := by
  refine ⟨?_, ?_⟩
  · exact ((c9_dry_run_and_missing_host initSt (.obj [])
      (some ⟨true, true, true⟩) [("wf_dry_run", "yes")] true).1 rfl).1
  · exact (c9_dry_run_and_missing_host initSt (.obj [])
      (some ⟨true, true, true⟩) [("wf_dry_run", "yes")] true).2 rfl
      ⟨true, true, true⟩ rfl rfl

/-- C8: across any sequence of invocations on one emitter instance, a
point-tag key once present in the cache is never lost: every later state
still has the key. -/
theorem c8_point_tags_monotone (calls : List CallArgs) :
    ∀ (st : EmSt) (k : String),
      (st.point_tags.lookup k).isSome = true →
      (((runCalls st calls).point_tags).lookup k).isSome = true := by
  induction calls with
  | nil => intro st k h; exact h
  | cons a rest ih =>
    intro st k h
    unfold runCalls
    exact ih _ k (callEmitter_pt_mono st a.message a.log a.agent_config
      a.connectOk k h)

/-- C8 witness: a cached `env` point tag survives a subsequent invocation. -/
theorem c8_witness :
    (((runCalls {initSt with point_tags := [("env", .str "prod")]}
      [⟨.obj [], some ⟨true, true, true⟩, [("wf_host", "h")], true⟩]).point_tags).lookup
        "env").isSome = true :=
  c8_point_tags_monotone _ _ "env" rfl

/-- C3 counterexample: after a failed connect attempt (real mode, connect
refused), the `finally` block still runs the close sequence: `shutdown` is
invoked on the never-connected socket and its error escapes the call —
refuting "the close operation is never performed after a failed connect". -/
theorem c3_counterexample :
    (callEmitter initSt (.obj []) (some ⟨true, true, true⟩)
      [("wf_host", "wfh")] false).1.sockEvents =
      [.create, .connectAttempt, .shutdownCall] ∧
    (callEmitter initSt (.obj []) (some ⟨true, true, true⟩)
      [("wf_host", "wfh")] false).2 = some .socketError := ⟨rfl, rfl⟩

/-- The `wf_port` entry, when present, parses as an integer. -/
def portOk (agent_config : List (String × String)) : Prop :=
  match agent_config.lookup "wf_port" with
  | some v => (pyInt v).isSome = true
  | Option.none => True

/-- C3 (amended): the close sequence is attempted at invocation end iff a
socket object was created this invocation, i.e. iff the mode is not dry-run
(and the configuration stage completed): in dry-run no socket operation
happens; after a successful connect, shutdown and close each run exactly
once; after a failed connect the shutdown is still attempted on the
unconnected socket — close is not reached and the shutdown error escapes the
call. -/
theorem c3_close_iff_socket_created (st : EmSt) (message : JVal)
    (log : Option Logger) (agent_config : List (String × String))
    (connectOk : Bool)
    (hhost : (agent_config.lookup "wf_host").isSome = true)
    (hport : portOk agent_config)
    (hdbg : logDebugOk log) :
    (dryFlagOf agent_config = true →
      (callEmitter st message log agent_config connectOk).1.sockEvents =
        st.sockEvents) ∧
    (dryFlagOf agent_config = false → connectOk = true →
      (callEmitter st message log agent_config connectOk).1.sockEvents =
        st.sockEvents ++
          [.create, .connectAttempt, .shutdownCall, .closeCall]) ∧
    (dryFlagOf agent_config = false → connectOk = false →
      (callEmitter st message log agent_config connectOk).1.sockEvents =
        st.sockEvents ++ [.create, .connectAttempt, .shutdownCall] ∧
      (callEmitter st message log agent_config connectOk).2 =
        some .socketError) := by
  obtain ⟨ph, hh⟩ := Option.isSome_iff_exists.mp hhost
  obtain ⟨p, hp⟩ : ∃ p, portStage agent_config = .ok p := by
    unfold portStage
    unfold portOk at hport
    cases hl : agent_config.lookup "wf_port" with
    | none => exact ⟨2878, rfl⟩
    | some v =>
      rw [hl] at hport
      obtain ⟨n, hn⟩ := Option.isSome_iff_exists.mp hport
      refine ⟨n, ?_⟩
      simp only [hn]
  unfold callEmitter
  simp only [hh, hp]
  refine ⟨?_, ?_, ?_⟩
  · intro hdry
    exact (callEmitterRest_dry st message log agent_config connectOk hdry).1
  · intro hdry hc
    exact (callEmitterRest_real st message log agent_config connectOk
      hdry hdbg).1 hc
  · intro hdry hc
    exact (callEmitterRest_real st message log agent_config connectOk
      hdry hdbg).2 hc

/-- C3 witness: real mode with a successful connect performs the shutdown
and close exactly once at invocation end. -/
theorem c3_witness :
    (callEmitter initSt (.obj []) (some ⟨true, true, true⟩)
      [("wf_host", "h")] true).1.sockEvents =
      initSt.sockEvents ++
        [.create, .connectAttempt, .shutdownCall, .closeCall] :=
  (c3_close_iff_socket_created initSt (.obj []) (some ⟨true, true, true⟩)
    [("wf_host", "h")] true rfl (by trivial) rfl).2.1 rfl rfl

/-- A logger of the shape the hosting agent supplies: `error` and `debug`
attributes present, no `err` attribute (the standard `logging.Logger`). -/
def stdLogger : Logger := ⟨true, true, false⟩

/-- A series payload whose tag list contains a colon-free token, so its
parsing raises `IndexError` inside the `try` block. -/
def c1payload : JVal := .obj [("series", .arr [.obj [("metric", .str "m"),
  ("tags", .arr [.str "nocolon"]), ("host", .str "h"),
  ("points", .arr [])]])]

/-- C1: exceptions do escape `emitter.__call__`.  First conjunct: with a
logger providing `error` and `debug` but no `err` (the standard library
logger used by the hosting agent), a payload whose parsing raises makes the
bare `except` handler's `log.err` call itself raise `AttributeError`, which
escapes the call.  Second conjunct: even with a logger providing all three
attributes, a failed connect leaves a created-but-unconnected socket whose
`shutdown` in the `finally` block raises past the boundary. -/
theorem c1_exception_escapes :
    (callEmitter initSt c1payload (some stdLogger)
      [("wf_host", "wfh"), ("wf_dry_run", "yes")] true).2 =
      some .attributeError ∧
    (callEmitter initSt c1payload (some ⟨true, true, true⟩)
      [("wf_host", "wfh")] false).2 = some .socketError := ⟨rfl, rfl⟩
